import Mathlib

/-!
Verification development for the PacificPNT_Reproducible pipeline.

Each Python stage that the claims reference is shallowly embedded here:
pure formula code becomes Lean functions over `ℝ` (trigonometry, matrix
algebra) or `ℚ` (rational/percentile arithmetic), fallible code returns
`Option`, and external-library geometry predicates (GeoPandas `intersects`,
`distance`) are abstracted as record fields carrying their results.
Floating-point arithmetic is idealised as exact real/rational arithmetic.
-/

open scoped Matrix

/-! ## Shared numeric helpers -/

/-- Python's `math.atan2 y x` (four-quadrant arctangent), as a real function.
Only the `x > 0` quadrant is ever reached by the code below, where it agrees
with `Real.arctan (y / x)`. -/
noncomputable def atan2 (y x : ℝ) : ℝ :=
  if 0 < x then Real.arctan (y / x)
  else if x < 0 then
    (if 0 ≤ y then Real.arctan (y / x) + Real.pi else Real.arctan (y / x) - Real.pi)
  else
    (if 0 < y then Real.pi / 2 else if y < 0 then -(Real.pi / 2) else 0)

/-- Python's `math.radians` / `np.radians`: degrees to radians. -/
noncomputable def radians (d : ℝ) : ℝ := d * (Real.pi / 180)

namespace Week3Dop

/-! Embedding of `src/01_baseline_phase1/week3_dop_sim.py`. -/

/-- One row of the geometry matrix `G` built by `calculate_hdop`:
line-of-sight vector (East, North, Up) of a satellite at `(azimuth, elevation)`
in degrees, plus the clock term `1`. -/
noncomputable def losRow (s : ℝ × ℝ) : Fin 4 → ℝ :=
  let az := radians s.1
  let el := radians s.2
  ![Real.cos el * Real.sin az, Real.cos el * Real.cos az, Real.sin el, 1]

/-- The 4×4 product `G.T @ G` of a row list `G`, entrywise
`(Gᵀ G) i j = Σ_rows r, r i * r j`. -/
noncomputable def gramFromRows (rows : List (Fin 4 → ℝ)) : Matrix (Fin 4) (Fin 4) ℝ :=
  Matrix.of fun i j => (rows.map fun r => r i * r j).sum

open Classical in
/-- Embedding of `calculate_hdop(satellites)`: `none` models `np.nan`
(fewer than 4 satellites, or `np.linalg.inv` raising `LinAlgError` on a
singular `G.T @ G`, which in exact arithmetic is `det = 0`). -/
noncomputable def calculate_hdop (satellites : List (ℝ × ℝ)) : Option ℝ :=
  if satellites.length < 4 then none
  else
    let G := satellites.map losRow
    let M := gramFromRows G
    if M.det = 0 then none
    else some (Real.sqrt (M⁻¹ 0 0 + M⁻¹ 1 1))

/-- Claim-side view of the same geometry: the matrix `G` whose `a`-th row is
`(cos el * sin az, cos el * cos az, sin el, 1)` for the `a`-th satellite. -/
noncomputable def losMatrix (satellites : List (ℝ × ℝ)) :
    Matrix (Fin satellites.length) (Fin 4) ℝ :=
  Matrix.of fun a i => losRow (satellites.get a) i

end Week3Dop

namespace RunBaseline

/-! Embedding of `calculate_hdop_from_geometry` from
`src/01_baseline_phase1/run_baseline.py`. -/

/-- One row of the `np.column_stack` matrix: the first three line-of-sight
components are negated, the clock column is `np.ones_like`. -/
noncomputable def geomRow (s : ℝ × ℝ) : Fin 4 → ℝ :=
  let az := radians s.1
  let el := radians s.2
  ![-(Real.cos el * Real.sin az), -(Real.cos el * Real.cos az), -(Real.sin el), 1]

open Classical in
/-- Embedding of `calculate_hdop_from_geometry(az, el)`; the bare `except`
around `np.linalg.inv` again maps a singular `G.T @ G` to `none` (`np.nan`). -/
noncomputable def calculate_hdop_from_geometry (az el : List ℝ) : Option ℝ :=
  if az.length < 4 then none
  else
    let rows := (az.zip el).map geomRow
    let M := Week3Dop.gramFromRows rows
    if M.det = 0 then none
    else some (Real.sqrt (M⁻¹ 0 0 + M⁻¹ 1 1))

/-- The per-column sign difference between the two implementations' `G`
matrices: the three line-of-sight columns are negated, the clock column is
not. -/
def signFlip : Fin 4 → ℝ := ![-1, -1, -1, 1]

end RunBaseline

namespace CalcPhase2Risk

/-! Embedding of `src/02_proposed_phase2/calc_phase2_risk.py`.  The GeoPandas
geometry calls are abstracted per obstacle and per query point:
`inBuffer` carries the result of `geometry.intersects(point.buffer(radius))`
(both the spatial-index branch and the fallback branch of the source select
exactly the rows whose geometry intersects the buffer), `dist` carries
`geometry.distance(point)`, `inOverheadBuffer` carries
`geometry.intersects(point.buffer(OVERHEAD_BUFFER_M))`, and `height` is the
obstacle's value in the table's height column (`none` when the table has no
height column, the value is missing, or `float()` on it fails). -/

/-- Constant `SEARCH_RADIUS_M`. -/
def SEARCH_RADIUS_M : ℝ := 50

/-- Constant `CALC_HEIGHT_M`. -/
noncomputable def CALC_HEIGHT_M : ℝ := 3 / 2

/-- Constant `DEFAULT_HEIGHT`. -/
def DEFAULT_HEIGHT : ℝ := 15

/-- One obstacle row of an obstacles GeoDataFrame, relative to a fixed
query point (see the namespace docstring for what each field abstracts). -/
structure Obstacle where
  dist : ℝ
  height : Option ℝ
  inBuffer : Bool
  inOverheadBuffer : Bool

open Classical in
/-- Per-obstacle score accumulation step of the `for` loop in
`risk_max_score`: skip obstacles whose height above the 1.5 m calculation
plane is non-positive, otherwise keep the running maximum of
`(degrees(atan2(rel_h, dist)) / 90) * (1 / (1 + dist / dist_scale))`. -/
noncomputable def scoreStep (dist_scale_m : ℝ) (maxScore : ℝ) (o : Obstacle) : ℝ :=
  let dist := if o.dist < 1 / 10 then 1 / 10 else o.dist
  let h := o.height.getD DEFAULT_HEIGHT
  let rel_h := h - CALC_HEIGHT_M
  if rel_h ≤ 0 then maxScore
  else
    let elev_angle := atan2 rel_h dist * (180 / Real.pi)
    let angle_score := elev_angle / 90
    let dist_score := 1 / (1 + dist / dist_scale_m)
    let obj_score := angle_score * dist_score
    if maxScore < obj_score then obj_score else maxScore

open Classical in
/-- Embedding of `risk_max_score(point, obstacles_gdf, radius_m, dist_scale_m)`:
filter to the obstacles intersecting the search buffer, return `0.0` when none
does, otherwise fold the loop and clamp with `min(max(·, 0.0), 1.0)`. -/
noncomputable def risk_max_score (obstacles : List Obstacle) (dist_scale_m : ℝ) : ℝ :=
  let nearby := obstacles.filter (·.inBuffer)
  if nearby.length = 0 then 0
  else
    let max_score := nearby.foldl (scoreStep dist_scale_m) 0
    min (max (max_score : ℝ) 0) 1

/-- Claim-side per-obstacle score for C3: with `d` the obstacle's distance
floored at 0.1 m and `h` its height defaulting to 15 m,
`(atan2(h - 1.5, d) in degrees / 90) * (1 / (1 + d / 10))`. -/
noncomputable def specScore (o : Obstacle) : ℝ :=
  (atan2 (o.height.getD 15 - 3 / 2) (max o.dist (1 / 10)) * (180 / Real.pi) / 90)
    * (1 / (1 + max o.dist (1 / 10) / 10))

/-- Embedding of `overhead_score_binary(point, brid_gdf, buffer_m)`:
`(0, 0.0)` when the bridge layer is `None` or empty, `(1, 1.0)` when some
bridge geometry intersects the buffered point, `(0, 0.0)` otherwise. -/
def overhead_score_binary (brid : Option (List Obstacle)) : ℕ × ℝ :=
  match brid with
  | none => (0, 0)
  | some rows =>
    if rows.length = 0 then (0, 0)
    else if rows.any (·.inOverheadBuffer) then (1, 1)
    else (0, 0)

/-- One output row of `calculate_phase2_risk` (the per-site fields the claims
are about; `site_id`, `class` and the coordinates are copied through from the
input CSV and omitted). -/
structure RiskRow where
  risk_proxy_5m : ℝ
  svf_proxy_5m : ℝ
  risk_horizon : ℝ
  overhead_flag : ℕ
  overhead_score : ℝ

/-- The row appended for one site by the main loop of
`calculate_phase2_risk`: `risk_proxy_5m` over the concatenation of buildings
and bridges, `risk_horizon` over buildings only, the overhead pair over the
bridge layer with the 2 m buffer. -/
noncomputable def siteRow (bldg brid : List Obstacle) : RiskRow :=
  let risk_all := risk_max_score (bldg ++ brid) 10
  let risk_h := risk_max_score bldg 10
  let p := overhead_score_binary (some brid)
  ⟨risk_all, 1 - risk_all, risk_h, p.1, p.2⟩

end CalcPhase2Risk

namespace Thresholds

/-! Embedding of the inner `quantile` function of
`qgis_scripts/03_determine_thresholds.py` (values are already sorted
ascending by the caller; floats are idealised as rationals). -/

/-- Python's `int()` truncation toward zero on a rational. -/
def pyInt (q : ℚ) : ℤ := if q < 0 then ⌈q⌉ else ⌊q⌋

/-- Embedding of `quantile(p)` over the sorted list `values` (Python's
`values[-1]` is the last element; all indexing is in range for a non-empty
list and `0 ≤ p ≤ 1`, so out-of-range `getD` defaults are never consulted
under the claims' hypotheses). -/
def quantile (values : List ℚ) (p : ℚ) : ℚ :=
  let n := values.length
  if p ≤ 0 then values.getD 0 0
  else if 1 ≤ p then values.getD (n - 1) 0
  else
    let k : ℚ := ((n : ℚ) - 1) * p
    let f : ℤ := ⌊k⌋
    let c : ℤ := ⌈k⌉
    if f = c then values.getD (pyInt k).toNat 0
    else values.getD f.toNat 0 + (values.getD c.toNat 0 - values.getD f.toNat 0) * (k - f)

end Thresholds

namespace ValidateStats

/-! Embedding of `validate_statistics` from
`src/02_proposed_phase2/validate_statistics.py`.  The numpy Mersenne-Twister
generator is abstracted: `mt seed i` is the index vector drawn by iteration
`i` of a `RandomState` created from `seed`, and `aucFn labels scores` is
`sklearn.metrics.roc_auc_score` (total here, since the source only calls it
on non-constant label vectors).  `np.percentile(xs, q)` on a non-empty array
with the default linear interpolation is embedded by `npPercentile`. -/

/-- One row of the merged `final_dataset.csv` table (the columns
`validate_statistics` requires). -/
structure StatsRow where
  err_p95_m : ℚ
  overhead_flag : ℚ
  risk_horizon : ℚ
  hdop_cut_a_median : ℚ

/-- Ground-truth labels: `(df['err_p95_m'] > 5.0).astype(int)`. -/
def yTrue (df : List StatsRow) : List ℚ :=
  df.map fun r => if 5 < r.err_p95_m then 1 else 0

/-- Phase-2 score: `np.where(overhead_flag == 1, 1.0, risk_horizon)`. -/
def scoreP2 (df : List StatsRow) : List ℚ :=
  df.map fun r => if r.overhead_flag = 1 then 1 else r.risk_horizon

/-- Benchmark score: `-df['hdop_cut_a_median']` (sign flipped so that larger
means riskier). -/
def scoreHdop (df : List StatsRow) : List ℚ :=
  df.map fun r => -r.hdop_cut_a_median

/-- Constant `n_bootstraps = 10000`. -/
def n_bootstraps : ℕ := 10000

/-- Embedding of `np.percentile(xs, q)` (default linear interpolation, `0 ≤ q ≤ 100`,
non-empty `xs`): sort, then interpolate at fractional index `(n-1)*q/100`. -/
def npPercentile (xs : List ℚ) (q : ℚ) : ℚ :=
  let s := List.insertionSort (· ≤ ·) xs
  let n := s.length
  let k : ℚ := ((n : ℚ) - 1) * (q / 100)
  let f : ℤ := ⌊k⌋
  let c : ℤ := ⌈k⌉
  s.getD f.toNat 0 + (s.getD c.toNat 0 - s.getD f.toNat 0) * (k - f)

/-- One iteration of the bootstrap `for` loop: draw an index vector, skip it
when the resampled label vector has fewer than two distinct values
(`len(np.unique(...)) < 2`), otherwise append both AUCs and their
difference. -/
def bootstrapStep (aucFn : List ℚ → List ℚ → ℚ) (y s2 sh : List ℚ)
    (draw : ℕ → List ℕ) (acc : List ℚ × List ℚ × List ℚ) (i : ℕ) :
    List ℚ × List ℚ × List ℚ :=
  let idx := draw i
  let labels := idx.map fun j => y.getD j 0
  if labels.dedup.length < 2 then acc
  else
    let a1 := aucFn labels (idx.map fun j => s2.getD j 0)
    let a2 := aucFn labels (idx.map fun j => sh.getD j 0)
    (acc.1 ++ [a1], acc.2.1 ++ [a2], acc.2.2 ++ [a1 - a2])

/-- Summary written to `stats_validation_results.txt`: the two AUC means,
the two 95 % confidence intervals, and the one-sided p-value. -/
structure StatsResult where
  p2_auc_mean : ℚ
  p2_ci_lo : ℚ
  p2_ci_hi : ℚ
  hdop_auc_mean : ℚ
  hdop_ci_lo : ℚ
  hdop_ci_hi : ℚ
  p_value : ℚ

/-- Embedding of `validate_statistics`: run the 10000-iteration bootstrap
loop and aggregate.  When every resample was skipped the source crashes in
`np.percentile` on an empty array; that is modelled as `none`. -/
def validate_statistics (df : List StatsRow) (draw : ℕ → List ℕ)
    (aucFn : List ℚ → List ℚ → ℚ) : Option StatsResult :=
  let y := yTrue df
  let s2 := scoreP2 df
  let sh := scoreHdop df
  let acc := (List.range n_bootstraps).foldl (bootstrapStep aucFn y s2 sh draw) ([], [], [])
  if acc.1.length = 0 then none
  else
    some ⟨acc.1.sum / acc.1.length,
          npPercentile acc.1 (5 / 2), npPercentile acc.1 (195 / 2),
          acc.2.1.sum / acc.2.1.length,
          npPercentile acc.2.1 (5 / 2), npPercentile acc.2.1 (195 / 2),
          ((acc.2.2.filter (· ≤ 0)).length : ℚ) / acc.2.2.length⟩

/-- Model of `np.random.RandomState(seed)`: with an explicit seed the stream
depends only on the seed; with `seed=None` numpy falls back to OS entropy. -/
def numpyRandomState (mt : ℕ → ℕ → List ℕ) (entropy : ℕ) (seed : Option ℕ) :
    ℕ → List ℕ :=
  match seed with
  | some s => mt s
  | none => mt entropy

/-- One full run of the statistical-validation stage: the source constructs
`np.random.RandomState(42)` and feeds it to the bootstrap loop. -/
def validateStatisticsRun (mt : ℕ → ℕ → List ℕ) (entropy : ℕ)
    (df : List StatsRow) (aucFn : List ℚ → List ℚ → ℚ) : Option StatsResult :=
  validate_statistics df (numpyRandomState mt entropy (some 42)) aucFn

/-- Claim-side for C4: the resampled label vector of bootstrap iteration `i`. -/
def labelsAt (df : List StatsRow) (draw : ℕ → List ℕ) (i : ℕ) : List ℚ :=
  (draw i).map fun j => (yTrue df).getD j 0

/-- Claim-side for C4: the retained iterations among the 10000 — those whose
resampled label vector is not constant (neither all 0 nor all 1). -/
def retained (df : List StatsRow) (draw : ℕ → List ℕ) : List ℕ :=
  (List.range 10000).filter fun i =>
    !((labelsAt df draw i).all (· == 0) || (labelsAt df draw i).all (· == 1))

/-- Claim-side for C4: the Phase-2 bootstrap AUC of iteration `i`. -/
def aucP2At (df : List StatsRow) (draw : ℕ → List ℕ)
    (aucFn : List ℚ → List ℚ → ℚ) (i : ℕ) : ℚ :=
  aucFn (labelsAt df draw i) ((draw i).map fun j => (scoreP2 df).getD j 0)

/-- Claim-side for C4: the HDOP-benchmark bootstrap AUC of iteration `i`
(HDOP scored with negated sign). -/
def aucHdopAt (df : List StatsRow) (draw : ℕ → List ℕ)
    (aucFn : List ℚ → List ℚ → ℚ) (i : ℕ) : ℚ :=
  aucFn (labelsAt df draw i) ((draw i).map fun j => (scoreHdop df).getD j 0)

end ValidateStats

namespace Phase2Eval

/-! Embedding of `calculate_safety_metrics` from
`src/02_proposed_phase2/run_phase2_evaluation.py`.  `roc_auc_score` is
abstracted as `aucFn` returning `none` when it raises `ValueError`; the
per-site rank fields of the returned dict are not referenced by any claim
and are omitted; `s_used` carries the score vector actually used for
ranking. -/

/-- Round-half-to-even to the nearest integer (Python's builtin `round`). -/
def rne (q : ℚ) : ℤ :=
  if Int.fract q < 1 / 2 then ⌊q⌋
  else if 1 / 2 < Int.fract q then ⌈q⌉
  else if Even ⌊q⌋ then ⌊q⌋ else ⌊q⌋ + 1

/-- Python's `round(q, 3)`. -/
def round3 (q : ℚ) : ℚ := (rne (q * 1000) : ℚ) / 1000

/-- One row of the merged evaluation table, restricted to the columns
`calculate_safety_metrics` extracts; `none` models a NaN entry that
`dropna()` removes (`site_id` is `astype(str)` and never missing). -/
structure EvalRow where
  site_id : String
  err_p95_m : Option ℚ
  y : Option ℚ
  score : Option ℚ

/-- The fields of the result dict the claims are about. -/
structure EvalResult where
  AUC : ℚ
  Flipped : Bool
  s_used : List ℚ
deriving DecidableEq

/-- Embedding of `calculate_safety_metrics(df, y_col, score_col, ...)`:
`none` when the score column is absent, when the label vector restricted to
complete rows has fewer than two distinct values, or when `roc_auc_score`
raises; otherwise flip the score when the raw AUC is below 0.5 and report
`round(auc_used, 3)` together with the `Flipped` flag. -/
def calculate_safety_metrics (hasScoreCol : Bool) (df : List EvalRow)
    (aucFn : List ℚ → List ℚ → Option ℚ) : Option EvalResult :=
  if hasScoreCol = false then none
  else
    let temp := df.filter fun r => r.y.isSome && r.score.isSome && r.err_p95_m.isSome
    let y := temp.map fun r => r.y.getD 0
    let s := temp.map fun r => r.score.getD 0
    if y.dedup.length < 2 then none
    else
      match aucFn y s with
      | none => none
      | some auc_raw =>
        if auc_raw < 1 / 2 then
          some ⟨round3 (1 - auc_raw), true, s.map fun v => -v⟩
        else
          some ⟨round3 auc_raw, false, s⟩

/-- Claim-side for C9: the complete rows kept by `dropna()`. -/
def tempRows (df : List EvalRow) : List EvalRow :=
  df.filter fun r => r.y.isSome && r.score.isSome && r.err_p95_m.isSome

/-- Claim-side for C9: the label vector of the complete rows. -/
def yVals (df : List EvalRow) : List ℚ :=
  (tempRows df).map fun r => r.y.getD 0

/-- Claim-side for C9: the score vector of the complete rows. -/
def sVals (df : List EvalRow) : List ℚ :=
  (tempRows df).map fun r => r.score.getD 0

/-- Concrete two-site table used to exercise `calculate_safety_metrics`. -/
def exampleDf : List EvalRow :=
  [⟨"A01", some 1, some 0, some (3 / 10)⟩, ⟨"A02", some 7, some 1, some (6 / 10)⟩]

/-- An AUC oracle returning 1/9 (a value `roc_auc_score` produces, e.g. for
9 positive-negative pairs with one concordant pair). -/
def exampleAucFn : List ℚ → List ℚ → Option ℚ := fun _ _ => some (1 / 9)

/-- The result `calculate_safety_metrics` produces on `exampleDf` with
`exampleAucFn`: flipped, with `round(8/9, 3) = 0.889` reported. -/
def exampleResult : EvalResult := ⟨889 / 1000, true, [-(3 / 10), -(6 / 10)]⟩

end Phase2Eval

namespace GnssNormalize

/-! Embedding of the header-normalisation pass of
`src/00_utils/gnss_parser.py` (`main`, `has_header`, `count_cols`) on the
line list of one input file.  The GNSS Logger lines contain no quoted
fields, so `csv.reader` on a single line is field-splitting on `,`;
`RuntimeError` is modelled as `none`. -/

/-- Python's `str.startswith(pre)`. -/
def lineStartsWith (pre s : String) : Bool := pre.data.isPrefixOf s.data

/-- Embedding of `count_cols(line)`: number of CSV fields. -/
def count_cols (line : String) : ℕ := (line.splitOn ",").length

/-- Known second-field header tokens per record type (`has_header`). -/
def headerTokensFix : List String :=
  ["Provider", "Latitude", "Longitude", "UnixTimeMillis", "TimeNanos"]

/-- Known second-field header tokens for `Status` records. -/
def headerTokensStatus : List String :=
  ["UnixTimeMillis", "TimeNanos", "Svid", "Cn0DbHz", "ElevationDegrees", "UsedInFix"]

/-- Known second-field header tokens for `Raw` records. -/
def headerTokensRaw : List String :=
  ["TimeNanos", "FullBiasNanos", "Svid", "Cn0DbHz"]

/-- Embedding of `has_header(lines, rec_type)`: some line has at least two fields and its
second field, stripped, is one of the known header tokens. -/
def has_header (lines : List String) (tokens : List String) : Bool :=
  lines.any fun ln =>
    match ln.splitOn "," with
    | _ :: second :: _ => tokens.contains second.trim
    | _ => false

/-- Header list `FIX_COLS_17`. -/
def FIX_COLS_17 : List String :=
  ["Fix", "Provider", "Latitude", "Longitude", "AltMeters", "SpeedMps",
   "Accuracy", "BearingDeg", "UnixTimeMillis", "SpeedAccMps", "BearingAccDeg",
   "TimeNanos", "Col12", "Col13", "Col14", "Col15", "Col16"]

/-- Header list `STATUS_COLS_14`. -/
def STATUS_COLS_14 : List String :=
  ["Status", "UnixTimeMillis", "Svid", "ConstellationType", "Col4",
   "AzimuthDegrees", "CarrierFrequencyHz", "Cn0DbHz", "Col8",
   "ElevationDegrees", "UsedInFix", "HasAlmanacData", "HasEphemerisData", "Col13"]

/-- Header list `RAW_COLS_36`. -/
def RAW_COLS_36 : List String :=
  ["Raw", "TimeNanos", "FullBiasNanos", "BiasNanos", "BiasUncertaintyNanos",
   "DriftNanosPerSecond", "DriftUncertaintyNanosPerSecond",
   "HardwareClockDiscontinuityCount", "Svid", "TimeOffsetNanos", "State",
   "ReceivedSvTimeNanos", "ReceivedSvTimeUncertaintyNanos", "Cn0DbHz",
   "PseudorangeRateMetersPerSecond", "PseudorangeRateUncertaintyMetersPerSecond",
   "AccumulatedDeltaRangeState", "AccumulatedDeltaRangeMeters",
   "AccumulatedDeltaRangeUncertaintyMeters", "CarrierFrequencyHz",
   "CarrierCycles", "CarrierPhase", "CarrierPhaseUncertainty",
   "MultipathIndicator", "SnrInDb", "ConstellationType", "AgcDb",
   "BasebandCn0DbHz", "Col28", "Col29", "Col30", "Col31", "Col32", "Col33",
   "Col34", "Col35"]

/-- The synthetic `Fix` header line, `",".join(FIX_COLS_17)`. -/
def fixHeaderLine : String := String.intercalate "," FIX_COLS_17

/-- The synthetic `Status` header line. -/
def statusHeaderLine : String := String.intercalate "," STATUS_COLS_14

/-- The synthetic `Raw` header line. -/
def rawHeaderLine : String := String.intercalate "," RAW_COLS_36

/-- The output-building `for` loop of `main`, with the three `seen_*` flags
as arguments: a needed header is emitted immediately before the first line
of its record type, and every original line is copied through. -/
def insertLoop (needF needS needR : Bool) :
    Bool → Bool → Bool → List String → List String
  | _, _, _, [] => []
  | seenF, seenS, seenR, ln :: rest =>
    (if !seenF && needF && lineStartsWith "Fix," ln then [fixHeaderLine] else []) ++
    (if !seenS && needS && lineStartsWith "Status," ln then [statusHeaderLine] else []) ++
    (if !seenR && needR && lineStartsWith "Raw," ln then [rawHeaderLine] else []) ++
    ln :: insertLoop needF needS needR
      (seenF || lineStartsWith "Fix," ln)
      (seenS || lineStartsWith "Status," ln)
      (seenR || lineStartsWith "Raw," ln) rest

/-- Per-file body of `main`: decide which headers are needed from the first
200 lines of each record type, hard-fail (`RuntimeError`, modelled `none`)
when an insertion is needed but the first record's column count does not
match the header to insert, otherwise run the insertion loop. -/
def normalizeLines (lines : List String) (noRawHeader : Bool) :
    Option (List String) :=
  let fixLines := lines.filter (lineStartsWith "Fix,")
  let statusLines := lines.filter (lineStartsWith "Status,")
  let rawLines := lines.filter (lineStartsWith "Raw,")
  let needFix := !fixLines.isEmpty && !has_header (fixLines.take 200) headerTokensFix
  let needStatus :=
    !statusLines.isEmpty && !has_header (statusLines.take 200) headerTokensStatus
  let needRaw :=
    !noRawHeader && !rawLines.isEmpty && !has_header (rawLines.take 200) headerTokensRaw
  if needFix ∧ count_cols (fixLines.headD "") ≠ FIX_COLS_17.length then none
  else if needStatus ∧ count_cols (statusLines.headD "") ≠ STATUS_COLS_14.length then none
  else if needRaw ∧ count_cols (rawLines.headD "") ≠ RAW_COLS_36.length then none
  else some (insertLoop needFix needStatus needRaw false false false lines)

/-- Claim-side primitive: insert `header` immediately before the first line
satisfying `p` (identity when no line does). -/
def insertBeforeFirst (p : String → Bool) (header : String) : List String → List String
  | [] => []
  | ln :: rest =>
    if p ln then header :: ln :: rest else ln :: insertBeforeFirst p header rest

/-- Claim-side conditional insertion. -/
def insertIf (need : Bool) (p : String → Bool) (header : String)
    (ls : List String) : List String :=
  if need then insertBeforeFirst p header ls else ls

end GnssNormalize

/-! # Theorems -/

namespace CalcPhase2Risk

theorem scoreStep_le (d : ℝ) (m : ℝ) (o : Obstacle) : m ≤ scoreStep d m o := by
  have key : ∀ X : ℝ, m ≤ if m < X then X else m := by
    intro X
    split
    · exact le_of_lt (by assumption)
    · exact le_refl m
  unfold scoreStep
  dsimp only
  split
  · exact le_refl m
  · exact key _

theorem risk_max_score_nonneg (obs : List Obstacle) (d : ℝ) :
    0 ≤ risk_max_score obs d := by
  unfold risk_max_score
  dsimp only
  split
  · exact le_refl 0
  · exact le_min (le_max_right _ _) zero_le_one

theorem risk_max_score_le_one (obs : List Obstacle) (d : ℝ) :
    risk_max_score obs d ≤ 1 := by
  unfold risk_max_score
  dsimp only
  split
  · exact zero_le_one
  · exact min_le_right _ _

theorem overhead_score_binary_cases (b : Option (List Obstacle)) :
    overhead_score_binary b = (0, 0) ∨ overhead_score_binary b = (1, 1) := by
  unfold overhead_score_binary
  rcases b with _ | rows
  · exact Or.inl rfl
  · dsimp only
    split
    · exact Or.inl rfl
    · split
      · exact Or.inr rfl
      · exact Or.inl rfl

end CalcPhase2Risk

/-- Claim C6: the statistical-validation stage is deterministic across
re-runs: `validate_statistics` seeds its generator with the fixed constant
42, so the drawn bootstrap index vectors — and therefore the reported AUC
means, confidence intervals and p-value — do not depend on the entropy a
seedless `RandomState` would have consumed, and two runs on the same input
table produce identical results. -/
theorem validation_run_deterministic (mt : ℕ → ℕ → List ℕ) (entropy1 entropy2 : ℕ)
    (df : List ValidateStats.StatsRow) (aucFn : List ℚ → List ℚ → ℚ) :
    ValidateStats.validateStatisticsRun mt entropy1 df aucFn =
      ValidateStats.validateStatisticsRun mt entropy2 df aucFn := rfl

/-- Claim C8: every per-site row built by `calculate_phase2_risk` satisfies
`svf_proxy_5m = 1 - risk_proxy_5m` exactly, has `risk_proxy_5m` and
`risk_horizon` in `[0, 1]`, has `overhead_flag ∈ {0, 1}` with
`overhead_score` equal to the flag, and `overhead_score_binary` always
returns `(0, 0.0)` or `(1, 1.0)`, returning `(0, 0.0)` whenever the bridge
layer is absent or empty. -/
theorem site_row_invariants (bldg brid : List CalcPhase2Risk.Obstacle) :
    (CalcPhase2Risk.siteRow bldg brid).svf_proxy_5m
        = 1 - (CalcPhase2Risk.siteRow bldg brid).risk_proxy_5m ∧
    0 ≤ (CalcPhase2Risk.siteRow bldg brid).risk_proxy_5m ∧
    (CalcPhase2Risk.siteRow bldg brid).risk_proxy_5m ≤ 1 ∧
    0 ≤ (CalcPhase2Risk.siteRow bldg brid).risk_horizon ∧
    (CalcPhase2Risk.siteRow bldg brid).risk_horizon ≤ 1 ∧
    ((CalcPhase2Risk.siteRow bldg brid).overhead_flag = 0 ∨
      (CalcPhase2Risk.siteRow bldg brid).overhead_flag = 1) ∧
    (CalcPhase2Risk.siteRow bldg brid).overhead_score
        = ((CalcPhase2Risk.siteRow bldg brid).overhead_flag : ℝ) ∧
    (∀ b : Option (List CalcPhase2Risk.Obstacle),
      CalcPhase2Risk.overhead_score_binary b = (0, 0) ∨
        CalcPhase2Risk.overhead_score_binary b = (1, 1)) ∧
    CalcPhase2Risk.overhead_score_binary none = (0, 0) ∧
    CalcPhase2Risk.overhead_score_binary (some []) = (0, 0) := by
  refine ⟨rfl, CalcPhase2Risk.risk_max_score_nonneg _ _,
    CalcPhase2Risk.risk_max_score_le_one _ _,
    CalcPhase2Risk.risk_max_score_nonneg _ _,
    CalcPhase2Risk.risk_max_score_le_one _ _, ?_, ?_,
    CalcPhase2Risk.overhead_score_binary_cases, rfl, rfl⟩
  · rcases CalcPhase2Risk.overhead_score_binary_cases (some brid) with h | h <;>
      simp [CalcPhase2Risk.siteRow, h]
  · rcases CalcPhase2Risk.overhead_score_binary_cases (some brid) with h | h <;>
      simp [CalcPhase2Risk.siteRow, h]

namespace Week3Dop

theorem gram_eq_transpose_mul (sats : List (ℝ × ℝ)) :
    gramFromRows (sats.map losRow) = (losMatrix sats)ᵀ * losMatrix sats := by
  ext i j
  simp only [gramFromRows, Matrix.of_apply, Matrix.mul_apply, Matrix.transpose_apply,
    losMatrix, List.map_map, Function.comp_def, List.get_eq_getElem]
  rw [Fin.sum_univ_get' sats fun s => losRow s i * losRow s j]

end Week3Dop

/-- Claim C1: `calculate_hdop` returns NaN (modelled `none`) on fewer than 4
satellites; on 4 or more it forms the matrix `G` whose rows are
`(cos el * sin az, cos el * cos az, sin el, 1)` and returns
`sqrt (Q 0 0 + Q 1 1)` for `Q = (Gᵀ G)⁻¹`, and NaN when `Gᵀ G` is
singular. -/
theorem calculate_hdop_spec (sats : List (ℝ × ℝ)) :
    Week3Dop.calculate_hdop sats =
      if sats.length < 4 then none
      else if ((Week3Dop.losMatrix sats)ᵀ * Week3Dop.losMatrix sats).det = 0 then none
      else some (Real.sqrt
        (((Week3Dop.losMatrix sats)ᵀ * Week3Dop.losMatrix sats)⁻¹ 0 0 +
          ((Week3Dop.losMatrix sats)ᵀ * Week3Dop.losMatrix sats)⁻¹ 1 1)) := by
  unfold Week3Dop.calculate_hdop
  dsimp only
  rw [Week3Dop.gram_eq_transpose_mul]

namespace RunBaseline

theorem geomRow_eq_neg (s : ℝ × ℝ) :
    geomRow s = fun i => signFlip i * Week3Dop.losRow s i := by
  funext i
  fin_cases i <;> simp [geomRow, Week3Dop.losRow, signFlip]

theorem gram_flip (rows : List (Fin 4 → ℝ)) :
    Week3Dop.gramFromRows (rows.map fun r i => signFlip i * r i)
      = Matrix.diagonal signFlip * Week3Dop.gramFromRows rows
          * Matrix.diagonal signFlip := by
  ext i j
  simp only [Week3Dop.gramFromRows, Matrix.of_apply, Matrix.diagonal_mul,
    Matrix.mul_diagonal, List.map_map, Function.comp_def]
  have h : (fun r : Fin 4 → ℝ => signFlip i * r i * (signFlip j * r j))
      = fun r : Fin 4 → ℝ => signFlip i * signFlip j * (r i * r j) := by
    funext r; ring
  rw [h, List.sum_map_mul_left]
  ring

theorem diag_flip_sq :
    Matrix.diagonal signFlip * Matrix.diagonal signFlip
      = (1 : Matrix (Fin 4) (Fin 4) ℝ) := by
  rw [Matrix.diagonal_mul_diagonal]
  have h : (fun i => signFlip i * signFlip i) = fun _ : Fin 4 => (1 : ℝ) := by
    funext i; fin_cases i <;> norm_num [signFlip]
  rw [h, Matrix.diagonal_one]

theorem det_flip (M : Matrix (Fin 4) (Fin 4) ℝ) :
    (Matrix.diagonal signFlip * M * Matrix.diagonal signFlip).det = M.det := by
  rw [Matrix.det_mul, Matrix.det_mul]
  have h : Matrix.det (Matrix.diagonal signFlip) * Matrix.det (Matrix.diagonal signFlip)
      = 1 := by
    rw [← Matrix.det_mul, diag_flip_sq, Matrix.det_one]
  calc Matrix.det (Matrix.diagonal signFlip) * M.det * Matrix.det (Matrix.diagonal signFlip)
      = M.det * (Matrix.det (Matrix.diagonal signFlip) * Matrix.det (Matrix.diagonal signFlip)) := by ring
    _ = M.det := by rw [h, mul_one]

theorem inv_flip (M : Matrix (Fin 4) (Fin 4) ℝ) (h : M.det ≠ 0) :
    (Matrix.diagonal signFlip * M * Matrix.diagonal signFlip)⁻¹
      = Matrix.diagonal signFlip * M⁻¹ * Matrix.diagonal signFlip := by
  apply Matrix.inv_eq_right_inv
  have hM : M * M⁻¹ = 1 := Matrix.mul_nonsing_inv M (isUnit_iff_ne_zero.mpr h)
  simp only [Matrix.mul_assoc]
  rw [← Matrix.mul_assoc (Matrix.diagonal signFlip) (Matrix.diagonal signFlip),
    diag_flip_sq, one_mul, ← Matrix.mul_assoc M M⁻¹, hM, one_mul, diag_flip_sq]

end RunBaseline

/-- Claim C2: the two HDOP implementations compute the same function: on any
satellite list, `calculate_hdop_from_geometry` (rows with the three
line-of-sight components negated) agrees with `calculate_hdop`, because
negating those columns of `G` leaves the diagonal of `(Gᵀ G)⁻¹` (and the
singularity of `Gᵀ G`) unchanged. -/
theorem hdop_implementations_agree (sats : List (ℝ × ℝ)) :
    RunBaseline.calculate_hdop_from_geometry (sats.map Prod.fst) (sats.map Prod.snd)
      = Week3Dop.calculate_hdop sats := by
  unfold RunBaseline.calculate_hdop_from_geometry Week3Dop.calculate_hdop
  rw [List.zip_map']
  simp only [List.length_map]
  have hmap : sats.map (fun a => (a.1, a.2)) = sats := by simp
  rw [hmap]
  by_cases hlen : sats.length < 4
  · simp [hlen]
  · simp only [if_neg hlen]
    have hrowfun : RunBaseline.geomRow
        = fun s (i : Fin 4) => RunBaseline.signFlip i * Week3Dop.losRow s i :=
      funext RunBaseline.geomRow_eq_neg
    have hrows : sats.map RunBaseline.geomRow
        = (sats.map Week3Dop.losRow).map fun r i => RunBaseline.signFlip i * r i := by
      rw [List.map_map, hrowfun]
      rfl
    rw [hrows, RunBaseline.gram_flip]
    by_cases hdet : (Week3Dop.gramFromRows (sats.map Week3Dop.losRow)).det = 0
    · have hdet2 : (Matrix.diagonal RunBaseline.signFlip
          * Week3Dop.gramFromRows (sats.map Week3Dop.losRow)
          * Matrix.diagonal RunBaseline.signFlip).det = 0 := by
        rw [RunBaseline.det_flip]; exact hdet
      simp [hdet, hdet2]
    · have hdet2 : (Matrix.diagonal RunBaseline.signFlip
          * Week3Dop.gramFromRows (sats.map Week3Dop.losRow)
          * Matrix.diagonal RunBaseline.signFlip).det ≠ 0 := by
        rw [RunBaseline.det_flip]; exact hdet
      simp only [if_neg hdet, if_neg hdet2]
      congr 1
      rw [RunBaseline.inv_flip _ hdet]
      simp [Matrix.mul_diagonal, Matrix.diagonal_mul, RunBaseline.signFlip]

namespace CalcPhase2Risk

theorem if_lt_eq_max (m x : ℝ) : (if m < x then x else m) = max m x := by
  rcases lt_or_ge m x with h | h
  · rw [if_pos h, max_eq_right h.le]
  · rw [if_neg (not_lt.mpr h), max_eq_left h]

theorem if_dist_eq_max (x : ℝ) : (if x < 1 / 10 then (1 : ℝ) / 10 else x) = max x (1 / 10) := by
  rcases lt_or_ge x (1 / 10) with h | h
  · rw [if_pos h, max_eq_right h.le]
  · rw [if_neg (not_lt.mpr h), max_eq_left h]

theorem scoreStep_eq_max (m : ℝ) (o : Obstacle)
    (hk : CALC_HEIGHT_M < o.height.getD DEFAULT_HEIGHT) :
    scoreStep 10 m o = max m (specScore o) := by
  unfold scoreStep specScore
  dsimp only
  rw [if_neg (not_le.mpr (sub_pos.mpr hk)), if_dist_eq_max, if_lt_eq_max]
  norm_num [CALC_HEIGHT_M, DEFAULT_HEIGHT]

theorem scoreStep_eq_skip (m : ℝ) (o : Obstacle)
    (hk : ¬CALC_HEIGHT_M < o.height.getD DEFAULT_HEIGHT) :
    scoreStep 10 m o = m := by
  unfold scoreStep
  dsimp only
  rw [if_pos (sub_nonpos.mpr (not_lt.mp hk))]

theorem foldr_max_swap (L : List ℝ) (x y : ℝ) :
    L.foldr max (max x y) = max x (L.foldr max y) := by
  induction L with
  | nil => rfl
  | cons c t ih => simp only [List.foldr_cons, ih, max_left_comm]

theorem foldl_scoreStep_eq (l : List Obstacle) (a : ℝ) :
    l.foldl (scoreStep 10) a
      = ((l.filter fun o => decide (CALC_HEIGHT_M < o.height.getD DEFAULT_HEIGHT)).map
          specScore).foldr max a := by
  induction l generalizing a with
  | nil => rfl
  | cons o t ih =>
    by_cases hk : CALC_HEIGHT_M < o.height.getD DEFAULT_HEIGHT
    · rw [List.foldl_cons, scoreStep_eq_max a o hk, ih,
        List.filter_cons_of_pos (by simpa using hk), List.map_cons, List.foldr_cons,
        max_comm a (specScore o), foldr_max_swap]
    · rw [List.foldl_cons, scoreStep_eq_skip a o hk, ih,
        List.filter_cons_of_neg (by simpa using hk)]

end CalcPhase2Risk

/-- Claim C3: `risk_max_score` returns 0.0 when no obstacle intersects the
search buffer; otherwise it returns the maximum, over the intersecting
obstacles whose height exceeds the 1.5 m calculation plane (the others
contribute nothing), of `(atan2(h - 1.5, d) in degrees / 90) * (1 / (1 + d/10))`
with `d` the distance floored at 0.1 m and `h` the height defaulting to 15 m,
clamped into `[0, 1]`. -/
theorem risk_max_score_spec (obs : List CalcPhase2Risk.Obstacle) :
    CalcPhase2Risk.risk_max_score obs 10 =
      if (obs.filter (·.inBuffer)).length = 0 then 0
      else
        min (max ((((obs.filter (·.inBuffer)).filter
            fun o => decide ((3 : ℝ) / 2 < o.height.getD 15)).map
              CalcPhase2Risk.specScore).foldr max 0) 0) 1 := by
  unfold CalcPhase2Risk.risk_max_score
  dsimp only
  rw [CalcPhase2Risk.foldl_scoreStep_eq]
  rfl

namespace Thresholds

theorem getD_mono (l : List ℚ) (hs : l.Sorted (· ≤ ·)) {i j : ℕ} (hij : i ≤ j)
    (hj : j < l.length) : l.getD i 0 ≤ l.getD j 0 := by
  have hi : i < l.length := lt_of_le_of_lt hij hj
  rw [List.getD_eq_getElem l 0 hi, List.getD_eq_getElem l 0 hj]
  have := hs.rel_get_of_le (a := ⟨i, hi⟩) (b := ⟨j, hj⟩) hij
  simpa using this

/-- Floor and ceil of an in-range fractional index, as `ℕ` indices into the
list: basic inequalities used throughout. -/
theorem index_facts (l : List ℚ) (k : ℚ) (h0 : 0 ≤ k) (hk : k ≤ (l.length : ℚ) - 1) :
    ⌊k⌋.toNat ≤ ⌈k⌉.toNat ∧ ⌈k⌉.toNat < l.length ∧ 1 ≤ l.length := by
  have hfl : (0 : ℤ) ≤ ⌊k⌋ := Int.floor_nonneg.mpr h0
  have hceil : ⌈k⌉ ≤ (l.length : ℤ) - 1 := by
    rw [Int.ceil_le]
    push_cast
    exact hk
  have hn1 : 1 ≤ l.length := by
    by_contra h
    have : l.length = 0 := by omega
    rw [this] at hk
    norm_num at hk
    linarith
  have hfc : ⌊k⌋ ≤ ⌈k⌉ := Int.floor_le_ceil k
  refine ⟨Int.toNat_le_toNat hfc, ?_, hn1⟩
  omega

theorem interp_lower (l : List ℚ) (hs : l.Sorted (· ≤ ·)) (k : ℚ) (h0 : 0 ≤ k)
    (hk : k ≤ (l.length : ℚ) - 1) :
    l.getD ⌊k⌋.toNat 0 ≤ l.getD ⌊k⌋.toNat 0
      + (l.getD ⌈k⌉.toNat 0 - l.getD ⌊k⌋.toNat 0) * (k - ⌊k⌋) := by
  obtain ⟨hfc, hcn, -⟩ := index_facts l k h0 hk
  have hv : l.getD ⌊k⌋.toNat 0 ≤ l.getD ⌈k⌉.toNat 0 := getD_mono l hs hfc hcn
  have hfr : 0 ≤ k - ⌊k⌋ := by
    have := Int.floor_le k
    linarith
  nlinarith

theorem interp_upper (l : List ℚ) (hs : l.Sorted (· ≤ ·)) (k : ℚ) (h0 : 0 ≤ k)
    (hk : k ≤ (l.length : ℚ) - 1) :
    l.getD ⌊k⌋.toNat 0
      + (l.getD ⌈k⌉.toNat 0 - l.getD ⌊k⌋.toNat 0) * (k - ⌊k⌋)
      ≤ l.getD ⌈k⌉.toNat 0 := by
  obtain ⟨hfc, hcn, -⟩ := index_facts l k h0 hk
  have hv : l.getD ⌊k⌋.toNat 0 ≤ l.getD ⌈k⌉.toNat 0 := getD_mono l hs hfc hcn
  have hfr : k - ⌊k⌋ ≤ 1 := by
    have := Int.lt_floor_add_one k
    push_cast at this
    linarith
  nlinarith

theorem ceil_of_floor_lt {k : ℚ} (h : (⌊k⌋ : ℚ) < k) : ⌈k⌉ = ⌊k⌋ + 1 := by
  have h1 : ⌈k⌉ ≤ ⌊k⌋ + 1 := Int.ceil_le_floor_add_one k
  have h2 : ⌊k⌋ + 1 ≤ ⌈k⌉ := by
    have hlt : (⌊k⌋ : ℚ) < (⌈k⌉ : ℚ) := lt_of_lt_of_le h (Int.le_ceil k)
    exact_mod_cast Int.add_one_le_of_lt (by exact_mod_cast hlt)
  omega

theorem interp_mono (l : List ℚ) (hs : l.Sorted (· ≤ ·)) (k k' : ℚ) (h0 : 0 ≤ k)
    (hkk : k ≤ k') (hk' : k' ≤ (l.length : ℚ) - 1) :
    l.getD ⌊k⌋.toNat 0 + (l.getD ⌈k⌉.toNat 0 - l.getD ⌊k⌋.toNat 0) * (k - ⌊k⌋)
      ≤ l.getD ⌊k'⌋.toNat 0
        + (l.getD ⌈k'⌉.toNat 0 - l.getD ⌊k'⌋.toNat 0) * (k' - ⌊k'⌋) := by
  have h0' : 0 ≤ k' := le_trans h0 hkk
  have hkle : k ≤ (l.length : ℚ) - 1 := le_trans hkk hk'
  rcases eq_or_lt_of_le (Int.floor_le_floor hkk) with hf | hf
  · by_cases hint : (⌊k⌋ : ℚ) = k
    · have hself : l.getD ⌊k⌋.toNat 0
          + (l.getD ⌈k⌉.toNat 0 - l.getD ⌊k⌋.toNat 0) * (k - ⌊k⌋)
          = l.getD ⌊k⌋.toNat 0 := by
        rw [hint]
        ring
      rw [hself, hf]
      exact interp_lower l hs k' h0' hk'
    · have hflt : (⌊k⌋ : ℚ) < k := lt_of_le_of_ne (Int.floor_le k) hint
      have hflt' : (⌊k'⌋ : ℚ) < k' := by
        rw [← hf]
        calc (⌊k⌋ : ℚ) < k := hflt
          _ ≤ k' := hkk
      have hc : ⌈k⌉ = ⌊k⌋ + 1 := ceil_of_floor_lt hflt
      have hc' : ⌈k'⌉ = ⌊k'⌋ + 1 := ceil_of_floor_lt hflt'
      rw [hc, hc', ← hf]
      obtain ⟨hfc, hcn, -⟩ := index_facts l k' h0' hk'
      rw [hc', ← hf] at hcn
      have hv : l.getD ⌊k⌋.toNat 0 ≤ l.getD (⌊k⌋ + 1).toNat 0 :=
        getD_mono l hs (by omega) hcn
      nlinarith
  · obtain ⟨hfc, hcn, -⟩ := index_facts l k h0 hkle
    obtain ⟨hfc', hcn', -⟩ := index_facts l k' h0' hk'
    have hfl : (0 : ℤ) ≤ ⌊k⌋ := Int.floor_nonneg.mpr h0
    have hfn' : ⌊k'⌋.toNat < l.length := lt_of_le_of_lt hfc' hcn'
    have step1 : l.getD ⌊k⌋.toNat 0
        + (l.getD ⌈k⌉.toNat 0 - l.getD ⌊k⌋.toNat 0) * (k - ⌊k⌋)
        ≤ l.getD ⌈k⌉.toNat 0 := interp_upper l hs k h0 hkle
    have hcf : ⌈k⌉ ≤ ⌊k'⌋ := le_trans (Int.ceil_le_floor_add_one k) (by omega)
    have step2 : l.getD ⌈k⌉.toNat 0 ≤ l.getD ⌊k'⌋.toNat 0 :=
      getD_mono l hs (Int.toNat_le_toNat hcf) hfn'
    have step3 : l.getD ⌊k'⌋.toNat 0
        ≤ l.getD ⌊k'⌋.toNat 0
          + (l.getD ⌈k'⌉.toNat 0 - l.getD ⌊k'⌋.toNat 0) * (k' - ⌊k'⌋) :=
      interp_lower l hs k' h0' hk'
    linarith

theorem quantile_le_zero (l : List ℚ) (p : ℚ) (hp : p ≤ 0) :
    quantile l p = l.getD 0 0 := by
  unfold quantile
  rw [if_pos hp]

theorem quantile_ge_one (l : List ℚ) (p : ℚ) (hp : 1 ≤ p) :
    quantile l p = l.getD (l.length - 1) 0 := by
  unfold quantile
  rw [if_neg (by linarith), if_pos hp]

theorem quantile_middle (l : List ℚ) (p : ℚ) (hp0 : 0 < p) (hp1 : p < 1)
    (hne : l ≠ []) :
    quantile l p
      = l.getD ⌊((l.length : ℚ) - 1) * p⌋.toNat 0
        + (l.getD ⌈((l.length : ℚ) - 1) * p⌉.toNat 0
            - l.getD ⌊((l.length : ℚ) - 1) * p⌋.toNat 0)
          * (((l.length : ℚ) - 1) * p - ⌊((l.length : ℚ) - 1) * p⌋) := by
  have hn1 : 1 ≤ l.length := by
    cases l with
    | nil => exact absurd rfl hne
    | cons a t => exact Nat.succ_le_succ (Nat.zero_le _)
  have hk0 : 0 ≤ ((l.length : ℚ) - 1) * p := by
    apply mul_nonneg _ hp0.le
    have : (1 : ℚ) ≤ (l.length : ℚ) := by exact_mod_cast hn1
    linarith
  unfold quantile
  rw [if_neg (not_le.mpr hp0), if_neg (not_le.mpr hp1)]
  dsimp only
  split
  · next hfc =>
    have hpy : pyInt (((l.length : ℚ) - 1) * p) = ⌊((l.length : ℚ) - 1) * p⌋ := by
      unfold pyInt
      rw [if_neg (not_lt.mpr hk0)]
    rw [hpy, hfc]
    ring
  · rfl

theorem quantile_between (l : List ℚ) (hs : l.Sorted (· ≤ ·)) (hne : l ≠ [])
    (p : ℚ) : l.getD 0 0 ≤ quantile l p ∧ quantile l p ≤ l.getD (l.length - 1) 0 := by
  have hn1 : 1 ≤ l.length := by
    cases l with
    | nil => exact absurd rfl hne
    | cons a t => exact Nat.succ_le_succ (Nat.zero_le _)
  have hlast : l.length - 1 < l.length := by omega
  by_cases hp0 : p ≤ 0
  · rw [quantile_le_zero l p hp0]
    exact ⟨le_refl _, getD_mono l hs (Nat.zero_le _) hlast⟩
  · by_cases hp1 : 1 ≤ p
    · rw [quantile_ge_one l p hp1]
      exact ⟨getD_mono l hs (Nat.zero_le _) hlast, le_refl _⟩
    · push_neg at hp0 hp1
      set k : ℚ := ((l.length : ℚ) - 1) * p with hkdef
      have hk0 : 0 ≤ k := by
        apply mul_nonneg _ hp0.le
        have : (1 : ℚ) ≤ (l.length : ℚ) := by exact_mod_cast hn1
        linarith
      have hk1 : k ≤ (l.length : ℚ) - 1 := by
        have hnn : (0 : ℚ) ≤ (l.length : ℚ) - 1 := by
          have : (1 : ℚ) ≤ (l.length : ℚ) := by exact_mod_cast hn1
          linarith
        calc ((l.length : ℚ) - 1) * p ≤ ((l.length : ℚ) - 1) * 1 :=
              mul_le_mul_of_nonneg_left hp1.le hnn
          _ = (l.length : ℚ) - 1 := mul_one _
      rw [quantile_middle l p hp0 hp1 hne]
      obtain ⟨hfc, hcn, -⟩ := index_facts l k hk0 hk1
      constructor
      · calc l.getD 0 0 ≤ l.getD ⌊k⌋.toNat 0 :=
              getD_mono l hs (Nat.zero_le _) (lt_of_le_of_lt hfc hcn)
          _ ≤ _ := interp_lower l hs k hk0 hk1
      · calc _ ≤ l.getD ⌈k⌉.toNat 0 := interp_upper l hs k hk0 hk1
          _ ≤ l.getD (l.length - 1) 0 := getD_mono l hs (by omega) hlast

/-- Claim C5: on a non-empty ascending-sorted value list, `quantile` returns
the first element for `p ≤ 0`, the last for `p ≥ 1`, and otherwise the
linear interpolation `values[f] + (values[c] - values[f]) * (k - f)` at
`k = (n-1)p`, `f = ⌊k⌋`, `c = ⌈k⌉`; consequently (first and last being the
minimum and maximum of a sorted list) the result always lies between the
minimum and maximum, and it is monotone non-decreasing in `p`. -/
theorem quantile_spec (values : List ℚ) (hs : values.Sorted (· ≤ ·))
    (hne : values ≠ []) :
    (∀ p : ℚ, p ≤ 0 → quantile values p = values.getD 0 0) ∧
    (∀ p : ℚ, 1 ≤ p → quantile values p = values.getD (values.length - 1) 0) ∧
    (∀ p : ℚ, 0 < p → p < 1 →
      quantile values p
        = values.getD ⌊((values.length : ℚ) - 1) * p⌋.toNat 0
          + (values.getD ⌈((values.length : ℚ) - 1) * p⌉.toNat 0
              - values.getD ⌊((values.length : ℚ) - 1) * p⌋.toNat 0)
            * (((values.length : ℚ) - 1) * p - ⌊((values.length : ℚ) - 1) * p⌋)) ∧
    (∀ x ∈ values, values.getD 0 0 ≤ x ∧ x ≤ values.getD (values.length - 1) 0) ∧
    (∀ p : ℚ, values.getD 0 0 ≤ quantile values p
      ∧ quantile values p ≤ values.getD (values.length - 1) 0) ∧
    (∀ p q : ℚ, p ≤ q → quantile values p ≤ quantile values q) := by
  have hn1 : 1 ≤ values.length := by
    cases values with
    | nil => exact absurd rfl hne
    | cons a t => exact Nat.succ_le_succ (Nat.zero_le _)
  have hone : (1 : ℚ) ≤ (values.length : ℚ) := by exact_mod_cast hn1
  refine ⟨fun p hp => quantile_le_zero values p hp,
    fun p hp => quantile_ge_one values p hp,
    fun p hp0 hp1 => quantile_middle values p hp0 hp1 hne, ?_,
    fun p => quantile_between values hs hne p, ?_⟩
  · intro x hx
    obtain ⟨i, hi⟩ := List.mem_iff_get.mp hx
    have hxi : x = values.getD i.1 0 := by
      rw [List.getD_eq_getElem values 0 i.2]
      simp [hi.symm]
    rw [hxi]
    refine ⟨getD_mono values hs (Nat.zero_le _) i.2, getD_mono values hs ?_ (by omega)⟩
    omega
  · intro p q hpq
    by_cases hp0 : p ≤ 0
    · rw [quantile_le_zero values p hp0]
      exact (quantile_between values hs hne q).1
    · by_cases hq1 : 1 ≤ q
      · rw [quantile_ge_one values q hq1]
        exact (quantile_between values hs hne p).2
      · push_neg at hp0 hq1
        have hp1 : p < 1 := lt_of_le_of_lt hpq hq1
        have hq0 : 0 < q := lt_of_lt_of_le hp0 hpq
        rw [quantile_middle values p hp0 hp1 hne,
          quantile_middle values q hq0 hq1 hne]
        have hnn : (0 : ℚ) ≤ (values.length : ℚ) - 1 := by linarith
        apply interp_mono values hs _ _ (mul_nonneg hnn hp0.le)
          (mul_le_mul_of_nonneg_left hpq hnn)
        calc ((values.length : ℚ) - 1) * q ≤ ((values.length : ℚ) - 1) * 1 :=
              mul_le_mul_of_nonneg_left hq1.le hnn
          _ = (values.length : ℚ) - 1 := mul_one _

end Thresholds

/-- Witness for C5 at the concrete sorted list `[1, 2, 3]`: the hypotheses
hold and, by the theorem, `quantile` at `p = 0` evaluates to the first
element. -/
theorem quantile_spec_witness :
    ([(1 : ℚ), 2, 3]).Sorted (· ≤ ·) ∧ ([(1 : ℚ), 2, 3] ≠ []) ∧
      Thresholds.quantile [(1 : ℚ), 2, 3] 0 = 1 :=
  ⟨by decide, by decide,
    (Thresholds.quantile_spec [(1 : ℚ), 2, 3] (by decide) (by decide)).1 0 le_rfl⟩

namespace ValidateStats

theorem dedup_length_lt_two_iff (l : List ℚ) :
    l.dedup.length < 2 ↔ ∀ a ∈ l, ∀ b ∈ l, a = b := by
  constructor
  · intro h a ha b hb
    have ha' : a ∈ l.dedup := List.mem_dedup.mpr ha
    have hb' : b ∈ l.dedup := List.mem_dedup.mpr hb
    rcases hld : l.dedup with _ | ⟨x, _ | ⟨y, t⟩⟩
    · rw [hld] at ha'
      exact absurd ha' (List.not_mem_nil a)
    · rw [hld] at ha' hb'
      have hax : a = x := by simpa using ha'
      have hbx : b = x := by simpa using hb'
      rw [hax, hbx]
    · rw [hld] at h
      simp only [List.length_cons] at h
      omega
  · intro h
    by_contra hlen
    push_neg at hlen
    rcases hld : l.dedup with _ | ⟨x, _ | ⟨y, t⟩⟩
    · rw [hld] at hlen
      simp at hlen
    · rw [hld] at hlen
      simp at hlen
    · have hnd : l.dedup.Nodup := l.nodup_dedup
      rw [hld] at hnd
      have hxy : x ≠ y := by
        intro hcon
        rw [hcon] at hnd
        simp [List.nodup_cons] at hnd
      have hx : x ∈ l := List.mem_dedup.mp (by rw [hld]; exact List.mem_cons_self x _)
      have hy : y ∈ l :=
        List.mem_dedup.mp (by rw [hld]; exact List.mem_cons_of_mem x (List.mem_cons_self y t))
      exact hxy (h x hx y hy)

theorem all_eq_iff_all01 (l : List ℚ) (h01 : ∀ x ∈ l, x = 0 ∨ x = 1) :
    (∀ a ∈ l, ∀ b ∈ l, a = b)
      ↔ ((l.all fun x => x == 0) || l.all fun x => x == 1) = true := by
  constructor
  · intro h
    cases l with
    | nil => simp
    | cons a t =>
      rw [Bool.or_eq_true, List.all_eq_true, List.all_eq_true]
      rcases h01 a (List.mem_cons_self a t) with ha | ha
      · refine Or.inl fun x hx => ?_
        have hxa := h x hx a (List.mem_cons_self a t)
        simp [hxa, ha]
      · refine Or.inr fun x hx => ?_
        have hxa := h x hx a (List.mem_cons_self a t)
        simp [hxa, ha]
  · intro h a ha b hb
    rw [Bool.or_eq_true, List.all_eq_true, List.all_eq_true] at h
    rcases h with h | h
    · have h1 := h a ha
      have h2 := h b hb
      simp only [beq_iff_eq] at h1 h2
      rw [h1, h2]
    · have h1 := h a ha
      have h2 := h b hb
      simp only [beq_iff_eq] at h1 h2
      rw [h1, h2]

theorem yTrue_mem01 (df : List StatsRow) : ∀ x ∈ yTrue df, x = 0 ∨ x = 1 := by
  intro x hx
  unfold yTrue at hx
  rw [List.mem_map] at hx
  obtain ⟨r, -, rfl⟩ := hx
  split
  · exact Or.inr rfl
  · exact Or.inl rfl

theorem labelsAt_mem01 (df : List StatsRow) (draw : ℕ → List ℕ) (i : ℕ) :
    ∀ x ∈ labelsAt df draw i, x = 0 ∨ x = 1 := by
  intro x hx
  unfold labelsAt at hx
  rw [List.mem_map] at hx
  obtain ⟨j, -, rfl⟩ := hx
  rcases lt_or_ge j (yTrue df).length with hj | hj
  · rw [List.getD_eq_getElem _ 0 hj]
    exact yTrue_mem01 df _ (List.getElem_mem hj)
  · rw [List.getD_eq_default _ 0 hj]
    exact Or.inl rfl

theorem skip_condition_iff (df : List StatsRow) (draw : ℕ → List ℕ) (i : ℕ) :
    (labelsAt df draw i).dedup.length < 2
      ↔ (((labelsAt df draw i).all fun x => x == 0)
          || (labelsAt df draw i).all fun x => x == 1) = true := by
  rw [dedup_length_lt_two_iff]
  exact all_eq_iff_all01 _ (labelsAt_mem01 df draw i)

theorem bootstrap_foldl (df : List StatsRow) (draw : ℕ → List ℕ)
    (aucFn : List ℚ → List ℚ → ℚ) (l : List ℕ) (acc : List ℚ × List ℚ × List ℚ) :
    l.foldl (bootstrapStep aucFn (yTrue df) (scoreP2 df) (scoreHdop df) draw) acc
      = (acc.1 ++ (l.filter fun i =>
            !((labelsAt df draw i).all (· == 0) || (labelsAt df draw i).all (· == 1))).map
            (aucP2At df draw aucFn),
         acc.2.1 ++ (l.filter fun i =>
            !((labelsAt df draw i).all (· == 0) || (labelsAt df draw i).all (· == 1))).map
            (aucHdopAt df draw aucFn),
         acc.2.2 ++ (l.filter fun i =>
            !((labelsAt df draw i).all (· == 0) || (labelsAt df draw i).all (· == 1))).map
            fun i => aucP2At df draw aucFn i - aucHdopAt df draw aucFn i) := by
  induction l generalizing acc with
  | nil => simp
  | cons i t ih =>
    rw [List.foldl_cons]
    by_cases hc : (((labelsAt df draw i).all (· == 0))
        || (labelsAt df draw i).all (· == 1)) = true
    · have hskip : bootstrapStep aucFn (yTrue df) (scoreP2 df) (scoreHdop df) draw acc i
          = acc := by
        have hraw : (((draw i).map fun j => (yTrue df).getD j 0)).dedup.length < 2 :=
          (skip_condition_iff df draw i).mpr hc
        unfold bootstrapStep
        dsimp only
        rw [if_pos hraw]
      rw [hskip, ih, List.filter_cons_of_neg (by simp [hc])]
    · have hpush : bootstrapStep aucFn (yTrue df) (scoreP2 df) (scoreHdop df) draw acc i
          = (acc.1 ++ [aucP2At df draw aucFn i],
             acc.2.1 ++ [aucHdopAt df draw aucFn i],
             acc.2.2 ++ [aucP2At df draw aucFn i - aucHdopAt df draw aucFn i]) := by
        have hraw : ¬(((draw i).map fun j => (yTrue df).getD j 0)).dedup.length < 2 :=
          fun hlt => hc ((skip_condition_iff df draw i).mp hlt)
        unfold bootstrapStep aucP2At aucHdopAt labelsAt
        dsimp only
        rw [if_neg hraw]
      have hc' : (((labelsAt df draw i).all (· == 0))
          || (labelsAt df draw i).all (· == 1)) = false := by
        simpa using hc
      rw [hpush, ih, List.filter_cons_of_pos (by simp [hc'])]
      simp [List.append_assoc]

end ValidateStats

set_option maxRecDepth 4000 in
/-- Claim C4: `validate_statistics` draws exactly 10000 bootstrap resamples,
discards every resample whose label vector is constant (all 0 or all 1), and
over the retained resamples reports the 95 % confidence intervals as the
2.5th and 97.5th percentiles of the bootstrap AUCs and the p-value as the
fraction of retained resamples whose AUC difference (Phase 2 minus HDOP,
HDOP scored with negated sign) is `≤ 0` (when every resample is discarded
the source crashes in `np.percentile`, modelled `none`). -/
theorem validate_statistics_bootstrap (df : List ValidateStats.StatsRow)
    (draw : ℕ → List ℕ) (aucFn : List ℚ → List ℚ → ℚ) :
    ValidateStats.validate_statistics df draw aucFn =
      if ValidateStats.retained df draw = [] then none
      else some
        ⟨((ValidateStats.retained df draw).map (ValidateStats.aucP2At df draw aucFn)).sum
            / ((ValidateStats.retained df draw).length : ℚ),
          ValidateStats.npPercentile
            ((ValidateStats.retained df draw).map (ValidateStats.aucP2At df draw aucFn)) (5 / 2),
          ValidateStats.npPercentile
            ((ValidateStats.retained df draw).map (ValidateStats.aucP2At df draw aucFn)) (195 / 2),
          ((ValidateStats.retained df draw).map (ValidateStats.aucHdopAt df draw aucFn)).sum
            / ((ValidateStats.retained df draw).length : ℚ),
          ValidateStats.npPercentile
            ((ValidateStats.retained df draw).map (ValidateStats.aucHdopAt df draw aucFn)) (5 / 2),
          ValidateStats.npPercentile
            ((ValidateStats.retained df draw).map (ValidateStats.aucHdopAt df draw aucFn)) (195 / 2),
          (((ValidateStats.retained df draw).filter fun i =>
              decide (ValidateStats.aucP2At df draw aucFn i
                - ValidateStats.aucHdopAt df draw aucFn i ≤ 0)).length : ℚ)
            / ((ValidateStats.retained df draw).length : ℚ)⟩ := by
  unfold ValidateStats.validate_statistics ValidateStats.n_bootstraps
  dsimp only
  rw [ValidateStats.bootstrap_foldl df draw aucFn (List.range 10000) ([], [], [])]
  dsimp only
  rw [List.nil_append, List.nil_append, List.nil_append]
  have hrr : ((List.range 10000).filter fun i =>
      !((ValidateStats.labelsAt df draw i).all (· == 0)
        || (ValidateStats.labelsAt df draw i).all (· == 1)))
      = ValidateStats.retained df draw := rfl
  rw [hrr]
  by_cases hr : ValidateStats.retained df draw = []
  · simp [hr]
  · have hlen : ¬((ValidateStats.retained df draw).map
        (ValidateStats.aucP2At df draw aucFn)).length = 0 := by
      simp [List.length_eq_zero, hr]
    rw [if_neg hlen, if_neg hr]
    simp only [List.filter_map, List.length_map]
    have hpred : ((fun b => decide (b ≤ 0)) ∘ fun i =>
        ValidateStats.aucP2At df draw aucFn i - ValidateStats.aucHdopAt df draw aucFn i)
        = fun i => decide (ValidateStats.aucP2At df draw aucFn i
            - ValidateStats.aucHdopAt df draw aucFn i ≤ 0) := rfl
    rw [hpred]

namespace Phase2Eval

theorem rne_ge_sub_half (q : ℚ) : q - 1 / 2 ≤ (rne q : ℚ) := by
  unfold rne
  split_ifs with h1 h2 h3
  · linarith [Int.self_sub_floor q]
  · linarith [Int.le_ceil q]
  · have heq : Int.fract q = 1 / 2 := le_antisymm (not_lt.mp h2) (not_lt.mp h1)
    linarith [Int.self_sub_floor q, heq]
  · have heq : Int.fract q = 1 / 2 := le_antisymm (not_lt.mp h2) (not_lt.mp h1)
    push_cast
    linarith [Int.self_sub_floor q, heq]

theorem half_le_round3 (x : ℚ) (hx : 1 / 2 ≤ x) : 1 / 2 ≤ round3 x := by
  unfold round3
  have h1 : x * 1000 - 1 / 2 ≤ (rne (x * 1000) : ℚ) := rne_ge_sub_half (x * 1000)
  have h2 : (499 : ℤ) < rne (x * 1000) := by
    by_contra hcon
    push_neg at hcon
    have hq : (rne (x * 1000) : ℚ) ≤ 499 := by exact_mod_cast hcon
    nlinarith
  have h3 : (500 : ℚ) ≤ (rne (x * 1000) : ℚ) := by
    have h500 : (500 : ℤ) ≤ rne (x * 1000) := by omega
    exact_mod_cast h500
  linarith

end Phase2Eval

/-- Claim C9 (amended): whenever `calculate_safety_metrics` returns a result
(it returns `none` when the score column is absent, the labels are constant,
or the AUC computation raises), the reported AUC is at least 0.5: when the
raw `roc_auc_score` is below 0.5, the score vector is negated for ranking,
`Flipped` is true, and the reported AUC is `round(1 - auc_raw, 3)`; otherwise
`Flipped` is false and `round(auc_raw, 3)` is reported. -/
theorem safety_metrics_flip (hasScoreCol : Bool) (df : List Phase2Eval.EvalRow)
    (aucFn : List ℚ → List ℚ → Option ℚ) (res : Phase2Eval.EvalResult)
    (h : Phase2Eval.calculate_safety_metrics hasScoreCol df aucFn = some res) :
    1 / 2 ≤ res.AUC ∧
    ∃ auc_raw, aucFn (Phase2Eval.yVals df) (Phase2Eval.sVals df) = some auc_raw ∧
      ((auc_raw < 1 / 2 ∧ res.Flipped = true
          ∧ res.AUC = Phase2Eval.round3 (1 - auc_raw)
          ∧ res.s_used = (Phase2Eval.sVals df).map fun v => -v) ∨
        (1 / 2 ≤ auc_raw ∧ res.Flipped = false
          ∧ res.AUC = Phase2Eval.round3 auc_raw
          ∧ res.s_used = Phase2Eval.sVals df)) := by
  unfold Phase2Eval.calculate_safety_metrics at h
  unfold Phase2Eval.yVals Phase2Eval.sVals Phase2Eval.tempRows
  cases hasScoreCol with
  | false => simp at h
  | true =>
    rw [if_neg (by simp)] at h
    dsimp only at h
    split at h
    · exact absurd h (by simp)
    · split at h
      · exact absurd h (by simp)
      · next auc_raw heq =>
        split at h
        · next hlt =>
          rw [Option.some.injEq] at h
          subst h
          exact ⟨Phase2Eval.half_le_round3 _ (by linarith),
            auc_raw, heq, Or.inl ⟨hlt, rfl, rfl, rfl⟩⟩
        · next hge =>
          rw [Option.some.injEq] at h
          subst h
          exact ⟨Phase2Eval.half_le_round3 _ (not_lt.mp hge),
            auc_raw, heq, Or.inr ⟨not_lt.mp hge, rfl, rfl, rfl⟩⟩

/-- Evaluation of `calculate_safety_metrics` on the concrete two-site table:
the raw AUC 1/9 is below 0.5, so the result is flipped and reports
`round(8/9, 3) = 0.889`. -/
theorem example_metrics_eval :
    Phase2Eval.calculate_safety_metrics true Phase2Eval.exampleDf Phase2Eval.exampleAucFn
      = some Phase2Eval.exampleResult := by
  unfold Phase2Eval.calculate_safety_metrics Phase2Eval.exampleDf Phase2Eval.exampleAucFn
    Phase2Eval.exampleResult
  rw [if_neg (by simp)]
  dsimp only
  norm_num [List.dedup_cons_of_not_mem, Phase2Eval.round3, Phase2Eval.rne, Int.fract,
    Int.floor_eq_iff, Int.ceil_eq_iff]
  rw [show ⌈(8000 : ℚ) / 9⌉ = 889 from by norm_num [Int.ceil_eq_iff]]
  norm_num

/-- Witness for the amended C9 at a concrete two-site table whose raw AUC is
1/9: the result is flipped and its reported AUC, `0.889`, is at least 0.5. -/
theorem safety_metrics_flip_witness :
    Phase2Eval.calculate_safety_metrics true Phase2Eval.exampleDf Phase2Eval.exampleAucFn
        = some Phase2Eval.exampleResult ∧
      1 / 2 ≤ Phase2Eval.exampleResult.AUC :=
  ⟨example_metrics_eval,
    (safety_metrics_flip true Phase2Eval.exampleDf Phase2Eval.exampleAucFn
      Phase2Eval.exampleResult example_metrics_eval).1⟩

/-- Claim C9 as stated is false on the code: with raw AUC `1/9 < 0.5` the
function flips the score but the reported AUC field is `round(8/9, 3) =
0.889`, which is not `1 - 1/9 = 8/9`: the report is rounded to three
decimals. -/
theorem safety_metrics_report_counterexample :
    Phase2Eval.calculate_safety_metrics true Phase2Eval.exampleDf Phase2Eval.exampleAucFn
        = some Phase2Eval.exampleResult ∧
      Phase2Eval.exampleAucFn (Phase2Eval.yVals Phase2Eval.exampleDf)
          (Phase2Eval.sVals Phase2Eval.exampleDf) = some (1 / 9) ∧
      Phase2Eval.exampleResult.Flipped = true ∧
      Phase2Eval.exampleResult.AUC ≠ 1 - 1 / 9 := by
  refine ⟨example_metrics_eval, rfl, rfl, by norm_num [Phase2Eval.exampleResult]⟩

namespace GnssNormalize

theorem isPrefixOf_head_ne {a b : Char} (hab : a ≠ b) (la lb l : List Char)
    (h : (a :: la).isPrefixOf l = true) : (b :: lb).isPrefixOf l = false := by
  cases l with
  | nil => simp [List.isPrefixOf] at h
  | cons c t =>
    simp only [List.isPrefixOf, Bool.and_eq_true, beq_iff_eq] at h
    obtain ⟨rfl, -⟩ := h
    have hb : (b == a) = false := by
      simp [Ne.symm hab]
    rw [show ((b :: lb).isPrefixOf (a :: t)) = (b == a && lb.isPrefixOf t) from rfl, hb,
      Bool.false_and]

theorem lineStartsWith_excl {a b : Char} {la lb : List Char} (pa pb : String)
    (hpa : pa.data = a :: la) (hpb : pb.data = b :: lb) (hab : a ≠ b) (ln : String)
    (h : lineStartsWith pa ln = true) : lineStartsWith pb ln = false := by
  unfold lineStartsWith at h ⊢
  rw [hpa] at h
  rw [hpb]
  exact isPrefixOf_head_ne hab _ _ _ h

theorem statusHeader_not_fix : lineStartsWith "Fix," statusHeaderLine = false := by decide

theorem rawHeader_not_fix : lineStartsWith "Fix," rawHeaderLine = false := by decide

theorem rawHeader_not_status : lineStartsWith "Status," rawHeaderLine = false := by decide

theorem insertBeforeFirst_cons_neg (p : String → Bool) (h ln : String) (X : List String)
    (hln : p ln = false) :
    insertBeforeFirst p h (ln :: X) = ln :: insertBeforeFirst p h X := by
  unfold insertBeforeFirst
  rw [if_neg (by simp [hln])]
  cases X <;> rfl

theorem insertBeforeFirst_cons_pos (p : String → Bool) (h ln : String) (X : List String)
    (hln : p ln = true) :
    insertBeforeFirst p h (ln :: X) = h :: ln :: X := by
  unfold insertBeforeFirst
  rw [if_pos (by simp [hln])]

theorem insertIf_false (p : String → Bool) (h : String) (ls : List String) :
    insertIf false p h ls = ls := rfl

theorem insertIf_cons_neg (b : Bool) (p : String → Bool) (h ln : String)
    (X : List String) (hln : p ln = false) :
    insertIf b p h (ln :: X) = ln :: insertIf b p h X := by
  cases b
  · rfl
  · unfold insertIf
    simp only [if_true]
    exact insertBeforeFirst_cons_neg p h ln X hln

theorem insertIf_cons_pos (b : Bool) (p : String → Bool) (h ln : String)
    (X : List String) (hln : p ln = true) :
    insertIf b p h (ln :: X) = (if b then [h] else []) ++ ln :: X := by
  cases b
  · rfl
  · unfold insertIf
    simp only [if_true, List.singleton_append]
    exact insertBeforeFirst_cons_pos p h ln X hln

theorem mem_headerIf {c : Bool} {hdr x : String} (hx : x ∈ if c then [hdr] else []) :
    x = hdr := by
  cases c
  · simp at hx
  · simpa using hx

theorem insertIf_append_of_none (b : Bool) (p : String → Bool) (h : String)
    (pre X : List String) (hpre : ∀ x ∈ pre, p x = false) :
    insertIf b p h (pre ++ X) = pre ++ insertIf b p h X := by
  induction pre with
  | nil => simp
  | cons a t ih =>
    rw [List.cons_append,
      insertIf_cons_neg b p h a _ (hpre a (List.mem_cons_self a t)),
      ih fun x hx => hpre x (List.mem_cons_of_mem a hx), List.cons_append]

theorem insertLoop_eq_insertIf (needF needS needR sF sS sR : Bool) (ls : List String) :
    insertLoop needF needS needR sF sS sR ls
      = insertIf (needF && !sF) (lineStartsWith "Fix,") fixHeaderLine
          (insertIf (needS && !sS) (lineStartsWith "Status,") statusHeaderLine
            (insertIf (needR && !sR) (lineStartsWith "Raw,") rawHeaderLine ls)) := by
  induction ls generalizing sF sS sR with
  | nil =>
    simp [insertLoop, insertIf, insertBeforeFirst]
  | cons ln rest ih =>
    by_cases hF : lineStartsWith "Fix," ln = true
    · have hS : lineStartsWith "Status," ln = false :=
        lineStartsWith_excl "Fix," "Status," rfl rfl (by decide) ln hF
      have hR : lineStartsWith "Raw," ln = false :=
        lineStartsWith_excl "Fix," "Raw," rfl rfl (by decide) ln hF
      rw [insertIf_cons_neg _ _ _ _ _ hR, insertIf_cons_neg _ _ _ _ _ hS,
        insertIf_cons_pos _ _ _ _ _ hF]
      simp only [insertLoop, hF, hS, hR, Bool.or_true, Bool.or_false, Bool.and_true,
        Bool.and_false, Bool.not_true, if_false, List.nil_append, ih,
        Bool.not_false]
      rw [insertIf_false]
      simp [Bool.and_comm]
    · by_cases hS : lineStartsWith "Status," ln = true
      · have hF2 : lineStartsWith "Fix," ln = false := by
          simpa using hF
        have hR : lineStartsWith "Raw," ln = false :=
          lineStartsWith_excl "Status," "Raw," rfl rfl (by decide) ln hS
        rw [insertIf_cons_neg _ _ _ _ _ hR, insertIf_cons_pos _ _ _ _ _ hS,
          insertIf_append_of_none _ _ _ _ _ (fun x hx =>
            mem_headerIf hx ▸ statusHeader_not_fix),
          insertIf_cons_neg _ _ _ _ _ hF2]
        simp only [insertLoop, hF2, hS, hR, Bool.or_true, Bool.or_false, Bool.and_true,
          Bool.and_false, Bool.not_true, if_false, List.nil_append, ih,
          Bool.not_false]
        rw [insertIf_false]
        simp [Bool.and_comm]
      · by_cases hR : lineStartsWith "Raw," ln = true
        · have hF2 : lineStartsWith "Fix," ln = false := by simpa using hF
          have hS2 : lineStartsWith "Status," ln = false := by simpa using hS
          rw [insertIf_cons_pos _ _ _ _ _ hR,
            insertIf_append_of_none _ _ _ _ _ (fun x hx =>
              mem_headerIf hx ▸ rawHeader_not_status),
            insertIf_cons_neg _ _ _ _ _ hS2,
            insertIf_append_of_none _ _ _ _ _ (fun x hx =>
              mem_headerIf hx ▸ rawHeader_not_fix),
            insertIf_cons_neg _ _ _ _ _ hF2]
          simp only [insertLoop, hF2, hS2, hR, Bool.or_true, Bool.or_false,
            Bool.and_true, Bool.and_false, Bool.not_true, if_false, List.nil_append, ih,
            Bool.not_false]
          rw [insertIf_false]
          simp [Bool.and_comm]
        · have hF2 : lineStartsWith "Fix," ln = false := by simpa using hF
          have hS2 : lineStartsWith "Status," ln = false := by simpa using hS
          have hR2 : lineStartsWith "Raw," ln = false := by simpa using hR
          rw [insertIf_cons_neg _ _ _ _ _ hR2, insertIf_cons_neg _ _ _ _ _ hS2,
            insertIf_cons_neg _ _ _ _ _ hF2]
          simp [insertLoop, hF2, hS2, hR2, ih]

theorem sublist_insertBeforeFirst (p : String → Bool) (h : String) :
    ∀ ls : List String, ls.Sublist (insertBeforeFirst p h ls) := by
  intro ls
  induction ls with
  | nil => exact List.Sublist.refl []
  | cons a t ih =>
    unfold insertBeforeFirst
    split
    · exact List.sublist_cons_self h (a :: t)
    · exact List.Sublist.cons₂ a ih

theorem sublist_insertIf (b : Bool) (p : String → Bool) (h : String) (ls : List String) :
    ls.Sublist (insertIf b p h ls) := by
  cases b
  · exact List.Sublist.refl ls
  · exact sublist_insertBeforeFirst p h ls

end GnssNormalize

/-- Claim C10: on every input file (given as its line list), the
header-normalisation step either succeeds — preserving all original lines in
their original relative order and inserting at most one synthetic header per
record type, each immediately before the first line of that type and only
when no existing header was detected among the first 200 lines of that
type — or raises `RuntimeError` (modelled `none`, no output written) when an
insertion is needed but the first record's column count differs from the
expected header length: 17 for Fix, 14 for Status, 36 for Raw. -/
theorem normalize_lines_spec (lines : List String) (noRawHeader : Bool) :
    (GnssNormalize.normalizeLines lines noRawHeader
      = (let fixLines := lines.filter (GnssNormalize.lineStartsWith "Fix,")
         let statusLines := lines.filter (GnssNormalize.lineStartsWith "Status,")
         let rawLines := lines.filter (GnssNormalize.lineStartsWith "Raw,")
         let needFix := !fixLines.isEmpty
             && !GnssNormalize.has_header (fixLines.take 200) GnssNormalize.headerTokensFix
         let needStatus := !statusLines.isEmpty
             && !GnssNormalize.has_header (statusLines.take 200) GnssNormalize.headerTokensStatus
         let needRaw := !noRawHeader && !rawLines.isEmpty
             && !GnssNormalize.has_header (rawLines.take 200) GnssNormalize.headerTokensRaw
         if needFix ∧ GnssNormalize.count_cols (fixLines.headD "") ≠ 17 then none
         else if needStatus ∧ GnssNormalize.count_cols (statusLines.headD "") ≠ 14 then none
         else if needRaw ∧ GnssNormalize.count_cols (rawLines.headD "") ≠ 36 then none
         else some (GnssNormalize.insertIf needFix (GnssNormalize.lineStartsWith "Fix,")
             GnssNormalize.fixHeaderLine
             (GnssNormalize.insertIf needStatus (GnssNormalize.lineStartsWith "Status,")
               GnssNormalize.statusHeaderLine
               (GnssNormalize.insertIf needRaw (GnssNormalize.lineStartsWith "Raw,")
                 GnssNormalize.rawHeaderLine lines))))) ∧
    (GnssNormalize.normalizeLines lines noRawHeader).elim True
      (fun out => lines.Sublist out) := by
  have heq : GnssNormalize.normalizeLines lines noRawHeader
      = (let fixLines := lines.filter (GnssNormalize.lineStartsWith "Fix,")
         let statusLines := lines.filter (GnssNormalize.lineStartsWith "Status,")
         let rawLines := lines.filter (GnssNormalize.lineStartsWith "Raw,")
         let needFix := !fixLines.isEmpty
             && !GnssNormalize.has_header (fixLines.take 200) GnssNormalize.headerTokensFix
         let needStatus := !statusLines.isEmpty
             && !GnssNormalize.has_header (statusLines.take 200) GnssNormalize.headerTokensStatus
         let needRaw := !noRawHeader && !rawLines.isEmpty
             && !GnssNormalize.has_header (rawLines.take 200) GnssNormalize.headerTokensRaw
         if needFix ∧ GnssNormalize.count_cols (fixLines.headD "") ≠ 17 then none
         else if needStatus ∧ GnssNormalize.count_cols (statusLines.headD "") ≠ 14 then none
         else if needRaw ∧ GnssNormalize.count_cols (rawLines.headD "") ≠ 36 then none
         else some (GnssNormalize.insertIf needFix (GnssNormalize.lineStartsWith "Fix,")
             GnssNormalize.fixHeaderLine
             (GnssNormalize.insertIf needStatus (GnssNormalize.lineStartsWith "Status,")
               GnssNormalize.statusHeaderLine
               (GnssNormalize.insertIf needRaw (GnssNormalize.lineStartsWith "Raw,")
                 GnssNormalize.rawHeaderLine lines)))) := by
    unfold GnssNormalize.normalizeLines
    dsimp only
    rw [GnssNormalize.insertLoop_eq_insertIf]
    simp only [Bool.not_false, Bool.and_true]
    rw [show GnssNormalize.FIX_COLS_17.length = 17 from rfl,
      show GnssNormalize.STATUS_COLS_14.length = 14 from rfl,
      show GnssNormalize.RAW_COLS_36.length = 36 from rfl]
  refine ⟨heq, ?_⟩
  rw [heq]
  dsimp only
  split_ifs
  · trivial
  · trivial
  · trivial
  · exact ((GnssNormalize.sublist_insertIf _ _ _ lines).trans
      (GnssNormalize.sublist_insertIf _ _ _ _)).trans
      (GnssNormalize.sublist_insertIf _ _ _ _)
